import Mathlib

/-!
Verification development for the Longevity_check repository.

The Python backend (src/backend) is shallowly embedded here:
* `KnowledgeBase.get_supplements_for_goal` (knowledge_base.py)
* `LLMOrchestrator.process_message`, `_detect_health_goals`,
  `_construct_llm_prompt`, `_extract_recommendations` (llm_orchestrator.py)
* `SessionManager.get_session`, `update_session`,
  `_clean_expired_sessions` (session_manager.py)
* the `/chat` endpoint handler (api.py)

Conventions of the embedding:
* Python strings are Lean `String`s; `str.lower`, `str.strip` and the
  `in` substring test are implemented below over `String.data`.
* `time.time()` is modelled by an explicit `now : Int` argument: each
  public operation is treated as happening at a single instant, so the
  several clock reads inside one operation all return `now`.
* Python dicts holding sessions are association lists in insertion
  order (`Store`); dict keys are unique, which appears as a `Nodup`
  hypothesis where a theorem needs it.
* The external collaborators that are not code of this repository —
  the OpenAI chat-completion client, `json.loads` and `re.search` —
  are parameters of the embedding (`Env.oracle`, `Env.jsonLoads`,
  `Env.reFind`).  `JsonVal` models the JSON shapes that the source's
  control flow distinguishes.
* Exceptions raised by the delegate are `Except.error`; everything
  the repository's own code does is total.
-/

/-! ### String helpers (Python `str.lower`, `str.strip`, `in`) -/

/-- Python `s.lower()` restricted to ASCII, which covers every string in
the repository. -/
def lowerStr (s : String) : String := ⟨s.data.map Char.toLower⟩

/-- Python `s.strip()`: drop whitespace from both ends. -/
def stripStr (s : String) : String :=
  ⟨((s.data.dropWhile Char.isWhitespace).reverse.dropWhile Char.isWhitespace).reverse⟩

/-- `needle` occurs contiguously inside `hay` (checked at every tail). -/
def isInfixList (needle hay : List Char) : Bool :=
  match hay with
  | [] => needle.isEmpty
  | _ :: tl => needle.isPrefixOf hay || isInfixList needle tl

/-- Python `needle in hay` for strings: contiguous-substring test. -/
def substrOf (needle hay : String) : Bool := isInfixList needle.data hay.data

/-! ### Data model -/

/-- One chat message, Python dict `{role: ..., content: ...}`. -/
structure Message where
  role : String
  content : String
deriving DecidableEq, Repr

/-- A knowledge item (knowledge_base.py).  The default knowledge base
gives every supplement all of these keys, so they are plain fields. -/
structure Supplement where
  name : String
  description : String
  dosage : String
  cautions : String
  evidence_level : String
  relevant_goals : List String
  referral_link : String
deriving DecidableEq, Repr

/-- One entry of a recommendation payload
(llm_orchestrator.py `_extract_recommendations`). -/
structure RecEntry where
  name : String
  referral_link : String
  dosage : String
deriving DecidableEq, Repr

/-- A recommendation payload: matched entries plus `int(time.time())`. -/
structure Payload where
  supplements : List RecEntry
  timestamp : Int
deriving DecidableEq, Repr

/-- The per-session dict created by `SessionManager.get_session`.
`recommendations` is `Option` because `get_session` does not create
that key; api.py adds it the first time a payload is stored. -/
structure SessionCtx where
  created_at : Int
  last_accessed : Int
  messages : List Message
  identified_goals : List String
  recommended_supplements : List Payload
  recommendations : Option (List Payload)
deriving DecidableEq, Repr

/-- `self.sessions`: a dict from session id to session context,
modelled as an association list in insertion order. -/
abbrev Store := List (String × SessionCtx)

/-- The JSON shapes that `_detect_health_goals` distinguishes in the
value returned by `json.loads`: a bare array of goal strings, an
object whose `"goals"` key holds an array, or some other object. -/
inductive JsonVal where
  | arrStr (xs : List String)
  | objWithGoals (xs : List String)
  | objOther
deriving DecidableEq, Repr

/-- External collaborators plus configuration of the orchestrator:
the knowledge base contents, the `OPENAI_API_KEY` value, the chat
completion delegate, `json.loads` and the `re.search` bracket scan. -/
structure Env where
  kb : List Supplement
  openai_api_key : String
  oracle : List Message → Except String String
  jsonLoads : String → Option JsonVal
  reFind : String → Option String

/-! ### KnowledgeBase.get_supplements_for_goal -/

/-- knowledge_base.py `get_supplements_for_goal`: the goal is lowered
and stripped once; an item is collected when the goal occurs inside
one of its lowered `relevant_goals` entries, or failing that inside
its lowered `description` (the source's `if`/`elif`). -/
def get_supplements_for_goal (supplements : List Supplement) (goal : String) :
    List Supplement :=
  let goal := stripStr (lowerStr goal)
  supplements.foldl (fun acc supplement =>
    if supplement.relevant_goals.any (fun target_goal => substrOf goal (lowerStr target_goal)) then
      acc ++ [supplement]
    else if substrOf goal (lowerStr supplement.description) then
      acc ++ [supplement]
    else acc) []

/-- Spec 4.3's match rule, written from the spec's words: the
case-insensitive, whitespace-trimmed goal appears as a substring of
some `relevant_goals` entry or of the description. -/
def goal_matches (goal : String) (s : Supplement) : Bool :=
  s.relevant_goals.any (fun tg => substrOf (stripStr (lowerStr goal)) (lowerStr tg)) ||
  substrOf (stripStr (lowerStr goal)) (lowerStr s.description)

/-! ### LLMOrchestrator._extract_recommendations -/

/-- The `{name, referral_link, dosage}` dict built per matched item. -/
def recEntryOf (s : Supplement) : RecEntry :=
  { name := s.name, referral_link := s.referral_link, dosage := s.dosage }

/-- Spec 4.5's match rule, from the spec's words: the candidate's name
occurs case-insensitively in the response text. -/
def name_mentioned (s : Supplement) (response_text : String) : Bool :=
  substrOf (lowerStr s.name) (lowerStr response_text)

/-- llm_orchestrator.py `_extract_recommendations`: `None` when there
are no candidates; otherwise collect the candidates whose lowered name
occurs in the lowered response text, and return `None` when none
matched, else the payload with the current timestamp. -/
def extract_recommendations (response_text : String)
    (available_supplements : List Supplement) (now : Int) : Option Payload :=
  if available_supplements.isEmpty then none
  else
    let recommended_supplements := available_supplements.foldl
      (fun acc supplement =>
        if substrOf (lowerStr supplement.name) (lowerStr response_text) then
          acc ++ [recEntryOf supplement]
        else acc) []
    if recommended_supplements.isEmpty then none
    else some { supplements := recommended_supplements, timestamp := now }

/-! ### SessionManager (session_manager.py) -/

/-- The fresh dict built by `get_session` for an unseen id: both clock
reads happen at the call's instant `now`. -/
def fresh_session (now : Int) : SessionCtx :=
  { created_at := now, last_accessed := now, messages := [],
    identified_goals := [], recommended_supplements := [],
    recommendations := none }

/-- Dict lookup on the session store: the first (and, keys being
unique, only) entry with the given id. -/
def lookupSession (st : Store) (id : String) : Option SessionCtx :=
  (List.find? (fun p => p.1 == id) st).map (fun p => p.2)

/-- `SessionManager._clean_expired_sessions`: collecting the ids with
`now - last_accessed > timeout` and deleting them leaves exactly the
non-expired entries, in order. -/
def clean_expired (now timeout : Int) (st : Store) : Store :=
  List.filter (fun p => !(decide (now - p.2.last_accessed > timeout))) st

/-- Overwrite the value stored under `id` (Python dict assignment for
an existing key: in-place, position preserved). -/
def refresh_store (st : Store) (id : String) (c : SessionCtx) : Store :=
  List.map (fun p => if p.1 == id then (p.1, c) else p) st

/-- `SessionManager.get_session`: sweep, then either create a fresh
session under the id (dict insertion appends) or bump the existing
session's `last_accessed`; returns the session and the updated store. -/
def get_session (now timeout : Int) (st : Store) (session_id : String) :
    SessionCtx × Store :=
  let st := clean_expired now timeout st
  match List.find? (fun p => p.1 == session_id) st with
  | none => (fresh_session now, st ++ [(session_id, fresh_session now)])
  | some p =>
      let ctx := { p.2 with last_accessed := now }
      (ctx, refresh_store st session_id ctx)

/-- `SessionManager.update_session`: set `last_accessed` on the given
context and store it under the id (overwrite if present, else append). -/
def update_session (now : Int) (st : Store) (session_id : String)
    (context : SessionCtx) : Store :=
  let context := { context with last_accessed := now }
  if (List.find? (fun p => p.1 == session_id) st).isSome then
    refresh_store st session_id context
  else st ++ [(session_id, context)]

/-! ### LLMOrchestrator (llm_orchestrator.py) -/

/-- The orchestrator's fixed persona/policy system prompt. -/
def base_system_prompt : String :=
  "\nYou are a helpful, knowledgeable Longevity Health Agent specializing in longevity medicine.\n\nYour goal is to understand the user's health concerns and goals, then provide evidence-based recommendations \non supplements, lifestyle changes, and general health practices that could help them.\n\nImportant guidelines:\n1. ALWAYS include appropriate medical disclaimers when giving health advice.\n2. Be clear about the level of scientific evidence supporting each recommendation.\n3. When recommending supplements, include dosage information, potential side effects, and contraindications.\n4. Encourage users to consult with healthcare professionals before starting any new health regimen.\n5. Avoid making exaggerated claims or promises about health outcomes.\n6. Be respectful, empathetic, and professional in your tone.\n7. Do not diagnose conditions or prescribe medications.\n8. When relevant, include referral links for recommended supplements using the format provided in the knowledge base.\n\nFor each response, try to:\n1. Acknowledge the user's concerns or questions\n2. Provide evidence-based information and context\n3. Give clear, actionable recommendations when appropriate\n4. Include relevant disclaimers\n"

/-- The rolling window `_detect_health_goals` builds: last 5 history
entries, user/assistant only, rendered `role: content`, newline-joined. -/
def full_conversation_str (conversation_history : List Message) : String :=
  String.intercalate "\n"
    (((conversation_history.drop (conversation_history.length - 5)).filter
        (fun m => m.role == "user" || m.role == "assistant")).map
      (fun m => m.role ++ ": " ++ m.content))

/-- System instruction of the goal-detection delegate call. -/
def detection_system_text : String :=
  "You are an AI assistant that identifies health goals and concerns from user messages. Extract specific health goals like weight loss, longevity, muscle gain, hair loss, sleep improvement, energy enhancement, mental clarity, etc. Respond with a JSON array of identified goals, using lowercase with spaces. If no goals are identified, return an empty array."

/-- The two-message prompt `_detect_health_goals` sends to the delegate. -/
def detection_prompt (message : String) (conversation_history : List Message) :
    List Message :=
  [{ role := "system", content := detection_system_text },
   { role := "user", content :=
      "Based on this conversation and the latest message, identify the health goals:\n\nConversation history:\n"
      ++ full_conversation_str conversation_history
      ++ "\n\nLatest message: " ++ message
      ++ "\n\nReturn ONLY a JSON array of goals, nothing else. Example: [\"weight loss\", \"hair regrowth\"]" }]

/-- The fixed vocabulary of the last parsing fallback tier. -/
def common_goals : List String :=
  ["weight loss", "longevity", "anti aging", "muscle gain",
   "hair loss", "sleep", "energy", "mental clarity",
   "stress reduction", "immune support"]

/-- Fallback tier on `json.JSONDecodeError`: keep each vocabulary goal
found in the lowered message or lowered rolling window. -/
def fallback_goal_scan (message full_conversation : String) : List String :=
  common_goals.foldl (fun goals goal =>
    if substrOf goal (lowerStr message) || substrOf goal (lowerStr full_conversation) then
      goals ++ [goal]
    else goals) []

/-- `LLMOrchestrator._detect_health_goals`.  The outer `except` makes a
delegate failure yield `[]`; a parsed object's `goals` array or a bare
array is returned as-is; otherwise a bracketed substring is re-parsed
(a bracketed substring can only parse as an array, so the other
`JsonVal` shapes are unreachable there and mapped to `[]`); a JSON
decode failure falls back to the fixed-vocabulary scan. -/
def detect_health_goals (env : Env) (message : String)
    (conversation_history : List Message) : List String :=
  let full_conversation := full_conversation_str conversation_history
  match env.oracle (detection_prompt message conversation_history) with
  | .error _ => []
  | .ok result_text =>
    match env.jsonLoads result_text with
    | some (.objWithGoals xs) => xs
    | some (.arrStr xs) => xs
    | some .objOther =>
        match env.reFind result_text with
        | some possible_array =>
            match env.jsonLoads possible_array with
            | some (.arrStr xs) => xs
            | some (.objWithGoals _) => []
            | some .objOther => []
            | none => fallback_goal_scan message full_conversation
        | none => []
    | none => fallback_goal_scan message full_conversation

/-- The `Relevant supplements from knowledge base` block appended to the
system prompt when the filter matched anything. -/
def supplements_info (relevant_supplements : List Supplement) : String :=
  relevant_supplements.foldl (fun acc s =>
    acc ++ "- " ++ s.name ++ ": " ++ s.description ++ "\n"
        ++ "  Typical dosage: " ++ s.dosage ++ "\n"
        ++ "  Referral link: " ++ s.referral_link ++ "\n\n")
    "\n\nRelevant supplements from knowledge base:\n"

/-- `LLMOrchestrator._construct_llm_prompt`: persona block (plus the
knowledge block when non-empty) followed by the last 10 history turns
restricted to user/assistant roles.  As in the source, the
`user_message` argument is not used (the history already ends with it). -/
def construct_llm_prompt (user_message : String)
    (conversation_history : List Message)
    (relevant_supplements : List Supplement) : List Message :=
  let system_prompt :=
    if relevant_supplements.isEmpty then base_system_prompt
    else base_system_prompt ++ supplements_info relevant_supplements
  { role := "system", content := system_prompt } ::
    ((conversation_history.drop (conversation_history.length - 10)).filter
        (fun m => m.role == "user" || m.role == "assistant")).map
      (fun m => { role := m.role, content := m.content })

/-- The in-place merge of newly detected goals into
`session_context["identified_goals"]`: membership is tested against the
list as it grows. -/
def merge_goals (detected_goals existing : List String) : List String :=
  detected_goals.foldl (fun acc goal =>
    if acc.contains goal then acc else acc ++ [goal]) existing

/-- Result of one `process_message` call: the returned pair, the session
context as mutated by the call, and how many delegate calls were made. -/
structure TurnResult where
  response : String
  recommendations : Option Payload
  ctx : SessionCtx
  delegate_calls : Nat
deriving Repr

/-- The fixed reply when no `OPENAI_API_KEY` is configured. -/
def apology_text : String :=
  "I'm sorry, but I'm not currently configured to process messages. Please contact support to set up the OpenAI API integration."

/-- `LLMOrchestrator.process_message`.  The credential check comes
first; then goals are detected (one delegate call), merged into the
session context (`identified_goals` is always a key of the contexts the
session manager creates), the knowledge base is filtered per goal, the
main prompt is built and the main delegate call made; its failure is
caught and turned into the apologetic error text with no payload.  The
goal merge precedes the main call, so it survives a main-call failure,
exactly as the in-place dict mutation does in the source. -/
def process_message (env : Env) (now : Int) (user_message : String)
    (session_context : SessionCtx) : TurnResult :=
  if env.openai_api_key == "" then
    { response := apology_text, recommendations := none,
      ctx := session_context, delegate_calls := 0 }
  else
    let conversation_history := session_context.messages
    let detected_goals := detect_health_goals env user_message conversation_history
    let session_context :=
      if detected_goals.isEmpty then session_context
      else { session_context with
              identified_goals := merge_goals detected_goals session_context.identified_goals }
    let relevant_supplements :=
      if detected_goals.isEmpty then []
      else detected_goals.foldl
        (fun acc goal => acc ++ get_supplements_for_goal env.kb goal) []
    let messages := construct_llm_prompt user_message conversation_history relevant_supplements
    match env.oracle messages with
    | .error e =>
        { response := "I apologize, but I encountered an error processing your request: " ++ e,
          recommendations := none, ctx := session_context, delegate_calls := 2 }
    | .ok response_text =>
        { response := response_text,
          recommendations := extract_recommendations response_text relevant_supplements now,
          ctx := session_context, delegate_calls := 2 }

/-! ### The /chat endpoint (api.py) -/

/-- The body the endpoint returns. -/
structure ChatResponse where
  session_id : String
  response : String
  recommendations : Option Payload
deriving Repr

/-- The part of api.py `chat` between session load and session save:
append the user message, run the orchestrator, append the assistant
reply, and append any payload to the ad-hoc `recommendations` key
(created on first use).  Returns the orchestrator result and the
session context as mutated by the turn. -/
def chat_turn_ctx (env : Env) (now : Int) (message : String)
    (session_context : SessionCtx) : TurnResult × SessionCtx :=
  let session_context :=
    { session_context with messages := session_context.messages ++ [{ role := "user", content := message }] }
  let result := process_message env now message session_context
  let session_context :=
    { result.ctx with messages := result.ctx.messages ++ [{ role := "assistant", content := result.response }] }
  let session_context :=
    match result.recommendations with
    | none => session_context
    | some rec =>
        { session_context with
            recommendations := some ((session_context.recommendations.getD []) ++ [rec]) }
  (result, session_context)

/-- api.py `chat`: load-or-create the session, run the turn body on it,
store the result back, and return the response payload.  Nothing in
this flow raises, so the endpoint's `HTTPException` wrapper is
unreachable and not modelled. -/
def chat (env : Env) (timeout now : Int) (store : Store)
    (session_id message : String) : ChatResponse × Store :=
  let loaded := get_session now timeout store session_id
  let turn := chat_turn_ctx env now message loaded.1
  let store := update_session now loaded.2 session_id turn.2
  ({ session_id := session_id, response := turn.1.response,
     recommendations := turn.1.recommendations }, store)

/-- The dict's keys, in insertion order. -/
def storeKeys (st : Store) : List String := st.map Prod.fst

/-! ### Sequences of turns and session operations -/

/-- Run a sequence of `/chat` turns `(now, message)` on one session id. -/
def run_turns (env : Env) (timeout : Int) (id : String)
    (turns : List (Int × String)) (store : Store) : Store :=
  turns.foldl (fun st t => (chat env timeout t.1 st id t.2).2) store

/-- The message log induced by a turn list and the per-turn assistant
replies: one user entry then one assistant entry per turn, in order. -/
def turnsJoin : List (Int × String) → List String → List Message
  | [], _ => []
  | _ :: _, [] => []
  | t :: ts, r :: rs =>
      { role := "user", content := t.2 } ::
        { role := "assistant", content := r } :: turnsJoin ts rs

/-- Idle gaps between consecutive turn times never exceed the timeout
(starting from a given `last_accessed`), so the session never expires
during the run. -/
def gaps_ok (timeout : Int) : Int → List (Int × String) → Prop
  | _, [] => True
  | t, trn :: rest => trn.1 - t ≤ timeout ∧ gaps_ok timeout trn.1 rest

/-- `gaps_ok` measured from the first turn's own time. -/
def gaps_after_first (timeout : Int) : List (Int × String) → Prop
  | [] => True
  | trn :: rest => gaps_ok timeout trn.1 rest

/-- The operations the application performs on one session: a bare
`get_session` load (which sweeps and bumps `last_accessed`) and a full
`/chat` turn. -/
inductive SOp where
  | load (now : Int)
  | turn (now : Int) (msg : String)

/-- The wall-clock instant of an operation. -/
def nowOf : SOp → Int
  | .load n => n
  | .turn n _ => n

/-- Apply one operation to the store. -/
def apply_op (env : Env) (timeout : Int) (id : String) (st : Store) :
    SOp → Store
  | .load n => (get_session n timeout st id).2
  | .turn n m => (chat env timeout n st id m).2

/-- Apply a sequence of operations, in order. -/
def apply_ops (env : Env) (timeout : Int) (id : String) (ops : List SOp)
    (st : Store) : Store :=
  ops.foldl (fun st op => apply_op env timeout id st op) st

/-- Operation times are non-decreasing and no idle gap exceeds the
timeout, measured from a given starting `last_accessed`. -/
def ops_chain (timeout : Int) : Int → List SOp → Prop
  | _, [] => True
  | t, op :: rest =>
      (t ≤ nowOf op ∧ nowOf op - t ≤ timeout) ∧ ops_chain timeout (nowOf op) rest

/-! ### The default knowledge base (knowledge_base.py `_load_default_supplements`) -/

def vitamin_d3 : Supplement :=
  { name := "Vitamin D3",
    description := "Vital for immune function, bone health, and overall longevity. Many people are deficient, especially in northern climates or those with limited sun exposure.",
    dosage := "1,000-5,000 IU daily, ideally with K2 for better calcium absorption",
    cautions := "High doses may cause hypercalcemia. Blood levels should be monitored with dosages above 5,000 IU daily.",
    evidence_level := "Strong - multiple randomized controlled trials",
    relevant_goals := ["immune support", "bone health", "longevity", "general health"],
    referral_link := "https://www.amazon.com/Nature-Made-Vitamin-Softgels-Count/dp/B08MQ5H83P/ref=sr_1_1?keywords=vitamin+d3+5000+iu+nature+made&qid=1711440000&sr=8-1" }

def magnesium : Supplement :=
  { name := "Magnesium",
    description := "Essential mineral involved in over 300 enzymatic reactions. Supports muscle function, sleep quality, stress response, and cardiovascular health.",
    dosage := "200-400mg daily, preferably magnesium glycinate or threonate forms for better absorption",
    cautions := "May cause loose stools at higher doses. Not recommended for those with kidney disease without medical supervision.",
    evidence_level := "Strong - multiple clinical trials",
    relevant_goals := ["sleep improvement", "stress reduction", "muscle recovery", "heart health"],
    referral_link := "https://www.amazon.com/Nature-Made-Magnesium-Supplement-Count/dp/B07RM7VXFV/ref=sr_1_1?keywords=magnesium+glycinate+nature+made&qid=1711440000&sr=8-1" }

def omega_3 : Supplement :=
  { name := "Omega-3 Fatty Acids",
    description := "Essential fatty acids that reduce inflammation, support brain health, and improve cardiovascular markers. DHA and EPA are the most studied beneficial forms.",
    dosage := "1-3g combined EPA+DHA daily",
    cautions := "May have blood-thinning effects. Discontinue 1-2 weeks before surgery. Choose low-mercury products.",
    evidence_level := "Strong - extensive research including large-scale trials",
    relevant_goals := ["heart health", "brain function", "inflammation reduction", "joint pain"],
    referral_link := "https://www.amazon.com/Nordic-Naturals-Ultimate-Omega-Softgels/dp/B01MULTGUM/ref=sr_1_1?keywords=nordic+naturals+ultimate+omega&qid=1711440000&sr=8-1" }

def berberine : Supplement :=
  { name := "Berberine",
    description := "Plant compound that helps regulate blood glucose, improves lipid profiles, and supports gut health. Often compared to metformin for its metabolic benefits.",
    dosage := "500mg 1-3 times daily with meals",
    cautions := "May cause digestive discomfort. Can interact with certain medications including antibiotics and blood thinners.",
    evidence_level := "Moderate to strong - multiple clinical trials",
    relevant_goals := ["blood sugar control", "weight loss", "metabolic health", "longevity"],
    referral_link := "https://www.amazon.com/Thorne-Research-Berberine-Supplement-Capsules/dp/B09BYRGXHL/ref=sr_1_1?keywords=thorne+berberine&qid=1711440000&sr=8-1" }

def coq10 : Supplement :=
  { name := "CoQ10 (Ubiquinol)",
    description := "Antioxidant important for cellular energy production in the mitochondria. Levels decline with age and statin use. Supports heart health and energy levels.",
    dosage := "100-200mg daily with a fatty meal for better absorption",
    cautions := "Generally well-tolerated. May interact with blood thinners and blood pressure medications.",
    evidence_level := "Moderate - multiple clinical trials",
    relevant_goals := ["energy", "heart health", "statin side effect reduction", "anti-aging"],
    referral_link := "https://www.amazon.com/NOW-Supplements-Ubiquinol-CoQ10-Softgels/dp/B0014AU4PY/ref=sr_1_1?keywords=now+ubiquinol+coq10&qid=1711440000&sr=8-1" }

def nmn : Supplement :=
  { name := "NMN (Nicotinamide Mononucleotide)",
    description := "Precursor to NAD+, which declines with age and is crucial for cellular energy production and DNA repair. May support healthy aging and metabolic function.",
    dosage := "250-1,000mg daily",
    cautions := "Relatively new supplement with limited long-term human studies. Generally considered safe but expensive.",
    evidence_level := "Emerging - animal studies promising, human studies limited",
    relevant_goals := ["longevity", "anti-aging", "energy", "cellular health"],
    referral_link := "https://www.amazon.com/ProHealth-Longevity-Nicotinamide-Mononucleotide-Supplement/dp/B07PVPLJ8P/ref=sr_1_1?keywords=prohealth+longevity+nmn&qid=1711440000&sr=8-1" }

def ashwagandha : Supplement :=
  { name := "Ashwagandha",
    description := "Adaptogenic herb that helps the body manage stress. May reduce cortisol levels, improve sleep quality, and support thyroid function.",
    dosage := "300-600mg daily of root extract standardized to 5% withanolides",
    cautions := "May increase thyroid hormone levels. Not recommended for pregnant women or those with autoimmune thyroid conditions.",
    evidence_level := "Moderate - several clinical trials",
    relevant_goals := ["stress reduction", "sleep", "anxiety", "thyroid support"],
    referral_link := "https://www.amazon.com/NOW-Supplements-Ashwagandha-450mg-Capsules/dp/B06X9T1Y8F/ref=sr_1_1?keywords=now+ashwagandha+450mg&qid=1711440000&sr=8-1" }

def creatine : Supplement :=
  { name := "Creatine Monohydrate",
    description := "One of the most well-researched supplements, supports muscle energy, cognitive function, and overall cellular energy production.",
    dosage := "3-5g daily, no loading phase necessary for general health",
    cautions := "May cause water retention initially. Stay well hydrated when supplementing.",
    evidence_level := "Strong - extensive research and clinical trials",
    relevant_goals := ["muscle strength", "cognitive performance", "energy", "exercise performance"],
    referral_link := "https://www.amazon.com/ON-Optimum-Nutrition-Creatine-Powder/dp/B002DYIZEO/ref=sr_1_1?keywords=optimum+nutrition+creatine+monohydrate&qid=1711440000&sr=8-1" }

def zinc : Supplement :=
  { name := "Zinc",
    description := "Essential mineral critical for immune function, testosterone production, and enzyme reactions. Many are deficient due to soil depletion and dietary choices.",
    dosage := "15-30mg daily, preferably with copper to prevent imbalance",
    cautions := "High doses may deplete copper. Long-term high-dose supplementation not recommended without monitoring.",
    evidence_level := "Strong - well-established essential nutrient",
    relevant_goals := ["immune support", "hormone balance", "skin health", "wound healing"],
    referral_link := "https://www.amazon.com/Nature-Made-Zinc-Supplement-Count/dp/B0912CSGB6/ref=sr_1_1?keywords=nature+made+zinc+30mg&qid=1711440000&sr=8-1" }

def lions_mane : Supplement :=
  { name := "Lion's Mane Mushroom",
    description := "Medicinal mushroom that supports nerve growth factor (NGF) production. May enhance cognitive function, memory, and nervous system health.",
    dosage := "500-1,000mg daily of extract standardized for beta-glucans",
    cautions := "May cause digestive upset in some individuals. Those with mushroom allergies should avoid.",
    evidence_level := "Moderate - promising research but limited large-scale human trials",
    relevant_goals := ["cognitive enhancement", "brain health", "memory", "focus"],
    referral_link := "https://www.amazon.com/dp/B078SZX3ML?tag=longevityagent-20" }

/-- The knowledge base api.py runs against (`KnowledgeBase()` with no
data file). -/
def default_supplements : List Supplement :=
  [vitamin_d3, magnesium, omega_3, berberine, coq10,
   nmn, ashwagandha, creatine, zinc, lions_mane]

/-! ### Claim C1: where recommendation payloads actually accumulate -/

/-- A delegate that answers the goal-detection prompt with a marker the
modelled `json.loads` maps to `["sleep improvement"]`, and answers the
main prompt with a reply that mentions Magnesium. -/
def c1_oracle : List Message → Except String String :=
  fun ms =>
    if ms.head?.map (fun m => m.content) = some detection_system_text then
      .ok "GOALS_JSON"
    else .ok "I recommend Magnesium."

def c1_jsonLoads : String → Option JsonVal :=
  fun s => if s = "GOALS_JSON" then some (.arrStr ["sleep improvement"]) else none

def c1_env : Env :=
  { kb := default_supplements, openai_api_key := "sk-test",
    oracle := c1_oracle, jsonLoads := c1_jsonLoads, reFind := fun _ => none }

/-- The payload the turn below produces. -/
def magnesium_payload : Payload :=
  { supplements := [{ name := magnesium.name,
                      referral_link := magnesium.referral_link,
                      dosage := magnesium.dosage }],
    timestamp := 100 }

/-! ### Concrete environments used in closed statements -/

def envNoKey : Env :=
  { kb := [], openai_api_key := "",
    oracle := fun _ => .error "delegate must not be reached",
    jsonLoads := fun _ => none, reFind := fun _ => none }

def envFailingOracle : Env :=
  { kb := [], openai_api_key := "sk-test",
    oracle := fun _ => .error "connection reset",
    jsonLoads := fun _ => none, reFind := fun _ => none }

/-! ### Generic foldl-accumulation lemmas -/

/-- A fold that appends `s` when either of two tests holds (the
source's `if`/`elif`) collects exactly the filter by their disjunction. -/
theorem foldl_two_branch_filter {α : Type} (p q : α → Bool) :
    ∀ (l : List α) (acc : List α),
      l.foldl (fun acc s => if p s then acc ++ [s] else if q s then acc ++ [s] else acc) acc
        = acc ++ l.filter (fun s => p s || q s) := by
  intro l
  induction l with
  | nil => intro acc; simp
  | cons hd tl ih =>
      intro acc
      by_cases hp : p hd
      · simp [List.foldl_cons, List.filter_cons, hp, ih]
      · by_cases hq : q hd
        · simp [List.foldl_cons, List.filter_cons, hp, hq, ih]
        · simp [List.foldl_cons, List.filter_cons, hp, hq, ih]

/-- A fold that appends `f s` when a test holds collects the image of
the filter. -/
theorem foldl_filter_map {α β : Type} (p : α → Bool) (f : α → β) :
    ∀ (l : List α) (acc : List β),
      l.foldl (fun acc s => if p s then acc ++ [f s] else acc) acc
        = acc ++ (l.filter p).map f := by
  intro l
  induction l with
  | nil => intro acc; simp
  | cons hd tl ih =>
      intro acc
      by_cases hp : p hd
      · simp [List.foldl_cons, List.filter_cons, hp, ih]
      · simp [List.foldl_cons, List.filter_cons, hp, ih]

/-! ### The claims about the knowledge-base filter and the extractor -/

/-- C4: `get_supplements_for_goal` keeps exactly the items whose
lowered, stripped goal occurs in some `relevant_goals` entry or in the
description (both lowered), in order — i.e. it is the filter by the
spec's match rule, so an item is included iff the rule holds of it, and
a goal matching no item yields the empty list. -/
theorem get_supplements_for_goal_eq_filter (supplements : List Supplement) (goal : String) :
    get_supplements_for_goal supplements goal
      = supplements.filter (goal_matches goal) := by
  unfold get_supplements_for_goal goal_matches
  rw [foldl_two_branch_filter]
  simp

/-- C5: `_extract_recommendations` returns `none` exactly when no
candidate's name occurs case-insensitively in the response text (in
particular when the candidate list is empty), and otherwise the payload
whose entries are, in candidate order, the name/referral/dosage of
exactly the matching candidates, stamped with the current time — never
a payload with an empty list. -/
theorem extract_recommendations_characterization (response_text : String)
    (available_supplements : List Supplement) (now : Int) :
    extract_recommendations response_text available_supplements now
      = (if (available_supplements.filter (fun s => name_mentioned s response_text)).isEmpty
         then none
         else some
           { supplements :=
               (available_supplements.filter (fun s => name_mentioned s response_text)).map recEntryOf,
             timestamp := now }) := by
  unfold extract_recommendations name_mentioned
  rw [foldl_filter_map]
  cases available_supplements with
  | nil => simp
  | cons hd tl => simp [List.isEmpty_iff]

/-! ### Session-store lemmas -/

theorem lookupSession_cons (p : String × SessionCtx) (st : Store) (id : String) :
    lookupSession (p :: st) id
      = if p.1 = id then some p.2 else lookupSession st id := by
  by_cases h : p.1 = id
  · simp [lookupSession, List.find?_cons_of_pos, h]
  · simp [lookupSession, List.find?_cons_of_neg, h]

theorem lookupSession_eq_none_of_not_mem (st : Store) (id : String)
    (h : id ∉ storeKeys st) : lookupSession st id = none := by
  induction st with
  | nil => rfl
  | cons hd tl ih =>
      rw [lookupSession_cons]
      simp only [storeKeys, List.map_cons, List.mem_cons, not_or] at h
      rw [if_neg (fun hc => h.1 hc.symm)]
      exact ih (by simpa [storeKeys] using h.2)

theorem not_mem_of_lookupSession_eq_none (st : Store) (id : String)
    (h : lookupSession st id = none) : id ∉ storeKeys st := by
  induction st with
  | nil => simp [storeKeys]
  | cons hd tl ih =>
      rw [lookupSession_cons] at h
      by_cases hh : hd.1 = id
      · rw [if_pos hh] at h; cases h
      · rw [if_neg hh] at h
        simp only [storeKeys, List.map_cons, List.mem_cons, not_or]
        exact ⟨fun hc => hh hc.symm, by simpa [storeKeys] using ih h⟩

theorem lookupSession_append_single (st : Store) (id : String) (c : SessionCtx)
    (h : lookupSession st id = none) :
    lookupSession (st ++ [(id, c)]) id = some c := by
  induction st with
  | nil => rw [List.nil_append, lookupSession_cons, if_pos rfl]
  | cons hd tl ih =>
      rw [lookupSession_cons] at h
      by_cases hh : hd.1 = id
      · rw [if_pos hh] at h; cases h
      · rw [if_neg hh] at h
        rw [List.cons_append, lookupSession_cons, if_neg hh]
        exact ih h

theorem lookupSession_append_other (st : Store) (id id' : String) (c : SessionCtx)
    (h : id' ≠ id) :
    lookupSession (st ++ [(id, c)]) id' = lookupSession st id' := by
  induction st with
  | nil =>
      rw [List.nil_append, lookupSession_cons, if_neg (fun hc => h hc.symm)]
  | cons hd tl ih =>
      rw [List.cons_append, lookupSession_cons, lookupSession_cons, ih]

theorem lookupSession_filter_none (p : String × SessionCtx → Bool) (st : Store)
    (id : String) (h : lookupSession st id = none) :
    lookupSession (st.filter p) id = none := by
  apply lookupSession_eq_none_of_not_mem
  intro hc
  apply not_mem_of_lookupSession_eq_none st id h
  simp only [storeKeys, List.mem_map] at hc ⊢
  obtain ⟨q, hq, hq2⟩ := hc
  exact ⟨q, (List.mem_filter.mp hq).1, hq2⟩

theorem lookupSession_filter_of_pos (p : String × SessionCtx → Bool) (st : Store)
    (id : String) (s : SessionCtx) (h : lookupSession st id = some s)
    (hp : p (id, s) = true) :
    lookupSession (st.filter p) id = some s := by
  induction st with
  | nil => simp [lookupSession] at h
  | cons hd tl ih =>
      rw [lookupSession_cons] at h
      by_cases hh : hd.1 = id
      · simp only [hh, if_pos rfl] at h
        have hhd : hd = (id, s) := by
          cases hd; cases h; cases hh; rfl
        subst hhd
        simp [List.filter_cons, hp, lookupSession_cons]
      · simp only [hh, if_false] at h
        by_cases hph : p hd
        · simpa [List.filter_cons, hph, lookupSession_cons, hh] using ih h
        · simpa [List.filter_cons, hph] using ih h

theorem lookupSession_filter_of_neg (p : String × SessionCtx → Bool) (st : Store)
    (id : String) (s : SessionCtx)
    (hnd : (storeKeys st).Nodup)
    (h : lookupSession st id = some s)
    (hp : p (id, s) = false) :
    lookupSession (st.filter p) id = none := by
  induction st with
  | nil => simp [lookupSession] at h
  | cons hd tl ih =>
      rw [lookupSession_cons] at h
      simp only [storeKeys, List.map_cons, List.nodup_cons] at hnd
      by_cases hh : hd.1 = id
      · simp only [hh, if_pos rfl] at h
        have hhd : hd = (id, s) := by
          cases hd; cases h; cases hh; rfl
        subst hhd
        simp only [List.filter_cons, hp, Bool.false_eq_true, if_false]
        apply lookupSession_filter_none
        apply lookupSession_eq_none_of_not_mem
        simpa [storeKeys] using hnd.1
      · simp only [hh, if_false] at h
        by_cases hph : p hd
        · simpa [List.filter_cons, hph, lookupSession_cons, hh] using
            ih hnd.2 h
        · simpa [List.filter_cons, hph] using ih hnd.2 h

theorem lookupSession_filter_iff (p : String × SessionCtx → Bool) (st : Store)
    (id : String) (c : SessionCtx) (hnd : (storeKeys st).Nodup) :
    lookupSession (st.filter p) id = some c
      ↔ (lookupSession st id = some c ∧ p (id, c) = true) := by
  constructor
  · intro h
    cases hs : lookupSession st id with
    | none => rw [lookupSession_filter_none p st id hs] at h; cases h
    | some s =>
        cases hp : p (id, s) with
        | false => rw [lookupSession_filter_of_neg p st id s hnd hs hp] at h; cases h
        | true =>
            rw [lookupSession_filter_of_pos p st id s hs hp] at h
            injection h with h2
            exact ⟨by rw [h2], h2 ▸ hp⟩
  · rintro ⟨h, hp⟩
    exact lookupSession_filter_of_pos p st id c h hp

theorem storeKeys_filter_sublist (p : String × SessionCtx → Bool) (st : Store) :
    (storeKeys (st.filter p)).Sublist (storeKeys st) :=
  (List.filter_sublist st).map Prod.fst

theorem refresh_store_cons (hd : String × SessionCtx) (tl : Store)
    (id : String) (c : SessionCtx) :
    refresh_store (hd :: tl) id c
      = (if hd.1 == id then (hd.1, c) else hd) :: refresh_store tl id c := rfl

theorem storeKeys_refresh (st : Store) (id : String) (c : SessionCtx) :
    storeKeys (refresh_store st id c) = storeKeys st := by
  induction st with
  | nil => rfl
  | cons hd tl ih =>
      rw [refresh_store_cons]
      by_cases hh : hd.1 = id
      · rw [if_pos (by simp [hh])]
        simpa [storeKeys] using ih
      · rw [if_neg (by simp [hh])]
        simpa [storeKeys] using ih

theorem lookupSession_refresh_self (st : Store) (id : String) (c : SessionCtx)
    (h : (lookupSession st id).isSome) :
    lookupSession (refresh_store st id c) id = some c := by
  induction st with
  | nil => simp [lookupSession] at h
  | cons hd tl ih =>
      rw [refresh_store_cons]
      by_cases hh : hd.1 = id
      · rw [if_pos (by simp [hh]), lookupSession_cons, if_pos hh]
      · rw [if_neg (by simp [hh]), lookupSession_cons, if_neg hh]
        rw [lookupSession_cons, if_neg hh] at h
        exact ih h

theorem lookupSession_refresh_other (st : Store) (id id' : String) (c : SessionCtx)
    (h : id' ≠ id) :
    lookupSession (refresh_store st id c) id' = lookupSession st id' := by
  induction st with
  | nil => rfl
  | cons hd tl ih =>
      rw [refresh_store_cons]
      by_cases hh : hd.1 = id
      · have hne : ¬ hd.1 = id' := by rw [hh]; exact fun hc => h hc.symm
        rw [if_pos (by simp [hh]), lookupSession_cons, lookupSession_cons,
            if_neg hne, if_neg hne, ih]
      · rw [if_neg (by simp [hh]), lookupSession_cons, lookupSession_cons, ih]

/-! ### clean_expired and get_session characterizations -/

theorem lookupSession_clean_none (now timeout : Int) (st : Store) (id : String)
    (h : lookupSession st id = none) :
    lookupSession (clean_expired now timeout st) id = none :=
  lookupSession_filter_none _ st id h

theorem lookupSession_clean_live (now timeout : Int) (st : Store) (id : String)
    (s : SessionCtx) (h : lookupSession st id = some s)
    (hl : ¬ now - s.last_accessed > timeout) :
    lookupSession (clean_expired now timeout st) id = some s := by
  apply lookupSession_filter_of_pos _ st id s h
  simpa using hl

theorem lookupSession_clean_dead (now timeout : Int) (st : Store) (id : String)
    (s : SessionCtx) (hnd : (storeKeys st).Nodup)
    (h : lookupSession st id = some s)
    (hd : now - s.last_accessed > timeout) :
    lookupSession (clean_expired now timeout st) id = none := by
  apply lookupSession_filter_of_neg _ st id s hnd h
  simpa using hd

theorem storeKeys_clean_nodup (now timeout : Int) (st : Store)
    (hnd : (storeKeys st).Nodup) :
    (storeKeys (clean_expired now timeout st)).Nodup :=
  (storeKeys_filter_sublist _ st).nodup hnd

theorem find?_eq_of_lookupSession (st : Store) (id : String) (s : SessionCtx)
    (h : lookupSession st id = some s) :
    List.find? (fun p => p.1 == id) st = some (id, s) := by
  induction st with
  | nil => cases h
  | cons hd tl ih =>
      rw [lookupSession_cons] at h
      by_cases hh : hd.1 = id
      · rw [if_pos hh] at h
        injection h with h2
        rw [List.find?_cons_of_pos _ (by simp [hh])]
        cases hd
        cases hh
        cases h2
        rfl
      · rw [if_neg hh] at h
        rw [List.find?_cons_of_neg _ (by simp [hh])]
        exact ih h

theorem get_session_of_absent (now timeout : Int) (st : Store) (id : String)
    (h : lookupSession st id = none) :
    get_session now timeout st id
      = (fresh_session now,
         clean_expired now timeout st ++ [(id, fresh_session now)]) := by
  have h1 : List.find? (fun p => p.1 == id) (clean_expired now timeout st) = none := by
    have := lookupSession_clean_none now timeout st id h
    unfold lookupSession at this
    exact Option.map_eq_none'.mp this
  show (match List.find? (fun p => p.1 == id) (clean_expired now timeout st) with
        | none => (fresh_session now,
            clean_expired now timeout st ++ [(id, fresh_session now)])
        | some p =>
            let ctx := { p.2 with last_accessed := now }
            (ctx, refresh_store (clean_expired now timeout st) id ctx)) = _
  rw [h1]

theorem get_session_of_live (now timeout : Int) (st : Store) (id : String)
    (s : SessionCtx) (h : lookupSession st id = some s)
    (hl : ¬ now - s.last_accessed > timeout) :
    get_session now timeout st id
      = ({ s with last_accessed := now },
         refresh_store (clean_expired now timeout st) id
           { s with last_accessed := now }) := by
  show (match List.find? (fun p => p.1 == id) (clean_expired now timeout st) with
        | none => (fresh_session now,
            clean_expired now timeout st ++ [(id, fresh_session now)])
        | some p =>
            let ctx := { p.2 with last_accessed := now }
            (ctx, refresh_store (clean_expired now timeout st) id ctx)) = _
  rw [find?_eq_of_lookupSession _ _ _ (lookupSession_clean_live now timeout st id s h hl)]

/-! ### Claims C2, C3, C10 -/

/-- C2: for a stored session, a sweep at time `now` removes it when
`now - last_accessed` is strictly greater than the timeout and keeps
it (unchanged) when that idle time is strictly less than the timeout;
in particular idle `timeout + 1` is removed, idle `timeout - 1` kept. -/
theorem clean_expired_boundary (now timeout : Int) (store : Store)
    (id : String) (s : SessionCtx)
    (hnd : (storeKeys store).Nodup)
    (h : lookupSession store id = some s) :
    (now - s.last_accessed > timeout →
       lookupSession (clean_expired now timeout store) id = none) ∧
    (now - s.last_accessed < timeout →
       lookupSession (clean_expired now timeout store) id = some s) := by
  constructor
  · intro hgt
    exact lookupSession_clean_dead now timeout store id s hnd h hgt
  · intro hlt
    exact lookupSession_clean_live now timeout store id s h (by omega)

theorem clean_expired_boundary_witness :
    (((storeKeys [("a", fresh_session 0)]).Nodup ∧
        lookupSession [("a", fresh_session 0)] "a" = some (fresh_session 0)) ∧
      ((3601 - (fresh_session 0).last_accessed > 3600 →
          lookupSession (clean_expired 3601 3600 [("a", fresh_session 0)]) "a" = none) ∧
       (3601 - (fresh_session 0).last_accessed < 3600 →
          lookupSession (clean_expired 3601 3600 [("a", fresh_session 0)]) "a"
            = some (fresh_session 0)))) :=
  ⟨⟨by decide, by decide⟩,
   clean_expired_boundary 3601 3600 [("a", fresh_session 0)] "a"
     (fresh_session 0) (by decide) (by decide)⟩

/-- C3: for a session id with no live entry in the store,
`get_session` silently creates and returns a fresh session whose
`messages` and `identified_goals` are empty and whose `created_at`
equals its `last_accessed`; the operation is total, so no error can be
raised for an unknown id. -/
theorem get_session_fresh (now timeout : Int) (store : Store) (id : String)
    (h : lookupSession store id = none) :
    (get_session now timeout store id).1.messages = [] ∧
    (get_session now timeout store id).1.identified_goals = [] ∧
    (get_session now timeout store id).1.created_at
      = (get_session now timeout store id).1.last_accessed := by
  rw [get_session_of_absent now timeout store id h]
  exact ⟨rfl, rfl, rfl⟩

theorem get_session_fresh_witness :
    (lookupSession [] "brand-new" = none ∧
     ((get_session 42 3600 [] "brand-new").1.messages = [] ∧
      (get_session 42 3600 [] "brand-new").1.identified_goals = [] ∧
      (get_session 42 3600 [] "brand-new").1.created_at
        = (get_session 42 3600 [] "brand-new").1.last_accessed)) :=
  ⟨rfl, get_session_fresh 42 3600 [] "brand-new" rfl⟩

/-- C10: looking up a live session changes only its `last_accessed`
(the returned context is the stored one with `last_accessed := now`,
and that is what is stored back), and every other id maps, after the
call, to exactly what it mapped to before provided it had not expired
— the pre-lookup sweep removes expired entries and nothing else. -/
theorem get_session_frame (now timeout : Int) (store : Store) (id : String)
    (s : SessionCtx)
    (hnd : (storeKeys store).Nodup)
    (h : lookupSession store id = some s)
    (hl : ¬ now - s.last_accessed > timeout) :
    (get_session now timeout store id).1 = { s with last_accessed := now } ∧
    lookupSession (get_session now timeout store id).2 id
      = some { s with last_accessed := now } ∧
    (∀ id' s', id' ≠ id →
      (lookupSession (get_session now timeout store id).2 id' = some s'
        ↔ (lookupSession store id' = some s' ∧ ¬ now - s'.last_accessed > timeout))) := by
  rw [get_session_of_live now timeout store id s h hl]
  refine ⟨rfl, ?_, ?_⟩
  · apply lookupSession_refresh_self
    rw [lookupSession_clean_live now timeout store id s h hl]
    rfl
  · intro id' s' hne
    rw [lookupSession_refresh_other _ _ _ _ hne]
    unfold clean_expired
    rw [lookupSession_filter_iff _ store id' s' hnd]
    simp

theorem get_session_frame_witness :
    (((storeKeys [("a", fresh_session 0)]).Nodup ∧
        lookupSession [("a", fresh_session 0)] "a" = some (fresh_session 0) ∧
        ¬ ((5 : Int) - (fresh_session 0).last_accessed > 3600)) ∧
      ((get_session 5 3600 [("a", fresh_session 0)] "a").1
          = { fresh_session 0 with last_accessed := 5 } ∧
       lookupSession (get_session 5 3600 [("a", fresh_session 0)] "a").2 "a"
          = some { fresh_session 0 with last_accessed := 5 } ∧
       (∀ id' s', id' ≠ "a" →
         (lookupSession (get_session 5 3600 [("a", fresh_session 0)] "a").2 id' = some s'
           ↔ (lookupSession [("a", fresh_session 0)] id' = some s'
               ∧ ¬ (5 : Int) - s'.last_accessed > 3600))))) :=
  ⟨⟨by decide, by decide, by decide⟩,
   get_session_frame 5 3600 [("a", fresh_session 0)] "a" (fresh_session 0)
     (by decide) (by decide) (by decide)⟩

/-! ### Claims C6 and C7 -/

/-- C6: with no `OPENAI_API_KEY` configured, `process_message` returns
the fixed apology text and no recommendation payload, leaves the
session context untouched, and makes no delegate call — the statement
holds for every delegate, and the recorded call count is zero, because
the credential check precedes all other work of the turn. -/
theorem process_message_no_key (env : Env) (now : Int) (user_message : String)
    (ctx : SessionCtx) (h : env.openai_api_key = "") :
    process_message env now user_message ctx
      = { response := apology_text, recommendations := none,
          ctx := ctx, delegate_calls := 0 } := by
  unfold process_message
  rw [if_pos (by simp [h])]

theorem process_message_no_key_witness :
    (envNoKey.openai_api_key = "" ∧
      process_message envNoKey 0 "hello" (fresh_session 0)
        = { response := apology_text, recommendations := none,
            ctx := fresh_session 0, delegate_calls := 0 }) :=
  ⟨rfl, process_message_no_key envNoKey 0 "hello" (fresh_session 0) rfl⟩

/-- C7: if the delegated goal-extraction call fails (raises), then
`_detect_health_goals` returns the empty goal list; the failure is
absorbed inside the function (which is total), so it cannot fail the
surrounding turn. -/
theorem detect_health_goals_delegate_failure (env : Env) (message : String)
    (conversation_history : List Message) (e : String)
    (h : env.oracle (detection_prompt message conversation_history) = .error e) :
    detect_health_goals env message conversation_history = [] := by
  unfold detect_health_goals
  rw [h]

theorem detect_health_goals_delegate_failure_witness :
    (envFailingOracle.oracle (detection_prompt "I want more energy" [])
        = .error "connection reset" ∧
      detect_health_goals envFailingOracle "I want more energy" [] = []) :=
  ⟨rfl, detect_health_goals_delegate_failure envFailingOracle
          "I want more energy" [] "connection reset" rfl⟩

/-! ### Shape of one chat turn -/

/-- `process_message` only ever touches the `identified_goals` field of
the session context it is given (the in-place goal merge); every other
field comes back unchanged. -/
theorem process_message_ctx_shape (env : Env) (now : Int) (user_message : String)
    (ctx : SessionCtx) :
    ∃ goals, (process_message env now user_message ctx).ctx
      = { ctx with identified_goals := goals } := by
  unfold process_message
  by_cases hk : env.openai_api_key == ""
  · rw [if_pos hk]
    exact ⟨ctx.identified_goals, rfl⟩
  · rw [if_neg hk]
    by_cases hg : (detect_health_goals env user_message ctx.messages).isEmpty
    · refine ⟨ctx.identified_goals, ?_⟩
      simp only [if_pos hg]
      cases env.oracle (construct_llm_prompt user_message ctx.messages []) <;> rfl
    · refine ⟨merge_goals (detect_health_goals env user_message ctx.messages)
        ctx.identified_goals, ?_⟩
      simp only [if_neg hg]
      cases env.oracle (construct_llm_prompt user_message ctx.messages
        ((detect_health_goals env user_message ctx.messages).foldl
          (fun acc goal => acc ++ get_supplements_for_goal env.kb goal) [])) <;> rfl

/-- One turn body appends exactly the user message and the assistant
reply to `messages`, and touches only `identified_goals` and the
`recommendations` accumulator besides — in particular `created_at`,
`last_accessed` and `recommended_supplements` are unchanged. -/
theorem chat_turn_ctx_shape (env : Env) (now : Int) (msg : String)
    (ctx : SessionCtx) :
    ∃ goals recs,
      (chat_turn_ctx env now msg ctx).2
        = { ctx with
              messages := ctx.messages ++
                [{ role := "user", content := msg },
                 { role := "assistant",
                   content := (chat_turn_ctx env now msg ctx).1.response }],
              identified_goals := goals,
              recommendations := recs } := by
  unfold chat_turn_ctx
  obtain ⟨goals, hg⟩ := process_message_ctx_shape env now msg
    { ctx with messages := ctx.messages ++ [{ role := "user", content := msg }] }
  cases hrec : (process_message env now msg
      { ctx with messages := ctx.messages ++ [{ role := "user", content := msg }] }).recommendations with
  | none =>
      exact ⟨goals, ctx.recommendations, by simp [hrec, hg, List.append_assoc]⟩
  | some rec =>
      exact ⟨goals, some (ctx.recommendations.getD [] ++ [rec]),
        by simp [hrec, hg, List.append_assoc]⟩

/-- A chat turn at time `now` on a live session appends a user and an
assistant message, bumps `last_accessed` to `now`, preserves
`created_at` and `recommended_supplements`, and leaves the store's key
sequence equal to that of the pre-lookup sweep. -/
theorem chat_step_live (env : Env) (timeout now : Int) (store : Store)
    (id msg : String) (s : SessionCtx)
    (h : lookupSession store id = some s)
    (hl : ¬ now - s.last_accessed > timeout) :
    ∃ resp goals recs,
      lookupSession (chat env timeout now store id msg).2 id
        = some { created_at := s.created_at, last_accessed := now,
                 messages := s.messages ++
                   [{ role := "user", content := msg },
                    { role := "assistant", content := resp }],
                 identified_goals := goals,
                 recommended_supplements := s.recommended_supplements,
                 recommendations := recs } ∧
      storeKeys (chat env timeout now store id msg).2
        = storeKeys (clean_expired now timeout store) := by
  have hload := get_session_of_live now timeout store id s h hl
  have hcl : lookupSession (clean_expired now timeout store) id = some s :=
    lookupSession_clean_live now timeout store id s h hl
  have hst1 : lookupSession
      (refresh_store (clean_expired now timeout store) id { s with last_accessed := now }) id
      = some { s with last_accessed := now } :=
    lookupSession_refresh_self _ _ _ (by rw [hcl]; rfl)
  obtain ⟨goals, recs, hshape⟩ :=
    chat_turn_ctx_shape env now msg { s with last_accessed := now }
  refine ⟨(chat_turn_ctx env now msg { s with last_accessed := now }).1.response,
          goals, recs, ?_, ?_⟩
  · show lookupSession (update_session now (get_session now timeout store id).2 id
        (chat_turn_ctx env now msg (get_session now timeout store id).1).2) id = _
    rw [hload]
    unfold update_session
    rw [if_pos (by rw [find?_eq_of_lookupSession _ _ _ hst1]; rfl)]
    rw [lookupSession_refresh_self _ _ _ (by rw [hst1]; rfl)]
    rw [hshape]
  · show storeKeys (update_session now (get_session now timeout store id).2 id
        (chat_turn_ctx env now msg (get_session now timeout store id).1).2) = _
    rw [hload]
    unfold update_session
    rw [if_pos (by rw [find?_eq_of_lookupSession _ _ _ hst1]; rfl)]
    rw [storeKeys_refresh, storeKeys_refresh]

/-- A chat turn at time `now` for an id with no live entry creates the
session afresh: afterwards it holds exactly the turn's user and
assistant messages, `created_at = last_accessed = now`,
`recommended_supplements` is empty, and the store's keys are those of
the sweep plus the new id at the end. -/
theorem chat_step_new (env : Env) (timeout now : Int) (store : Store)
    (id msg : String)
    (h : lookupSession store id = none) :
    ∃ resp goals recs,
      lookupSession (chat env timeout now store id msg).2 id
        = some { created_at := now, last_accessed := now,
                 messages :=
                   [{ role := "user", content := msg },
                    { role := "assistant", content := resp }],
                 identified_goals := goals,
                 recommended_supplements := [],
                 recommendations := recs } ∧
      storeKeys (chat env timeout now store id msg).2
        = storeKeys (clean_expired now timeout store) ++ [id] := by
  have hload := get_session_of_absent now timeout store id h
  have hcl : lookupSession (clean_expired now timeout store) id = none :=
    lookupSession_clean_none now timeout store id h
  have hst1 : lookupSession
      (clean_expired now timeout store ++ [(id, fresh_session now)]) id
      = some (fresh_session now) :=
    lookupSession_append_single _ _ _ hcl
  obtain ⟨goals, recs, hshape⟩ := chat_turn_ctx_shape env now msg (fresh_session now)
  refine ⟨(chat_turn_ctx env now msg (fresh_session now)).1.response,
          goals, recs, ?_, ?_⟩
  · show lookupSession (update_session now (get_session now timeout store id).2 id
        (chat_turn_ctx env now msg (get_session now timeout store id).1).2) id = _
    rw [hload]
    unfold update_session
    rw [if_pos (by rw [find?_eq_of_lookupSession _ _ _ hst1]; rfl)]
    rw [lookupSession_refresh_self _ _ _ (by rw [hst1]; rfl)]
    rw [hshape]
    rfl
  · show storeKeys (update_session now (get_session now timeout store id).2 id
        (chat_turn_ctx env now msg (get_session now timeout store id).1).2) = _
    rw [hload]
    unfold update_session
    rw [if_pos (by rw [find?_eq_of_lookupSession _ _ _ hst1]; rfl)]
    rw [storeKeys_refresh]
    show List.map Prod.fst (clean_expired now timeout store ++ [(id, fresh_session now)]) = _
    rw [List.map_append]
    rfl

/-! ### Sequences of chat turns (claims C8 and C9) -/

theorem turnsJoin_length :
    ∀ (turns : List (Int × String)) (replies : List String),
      replies.length = turns.length →
      (turnsJoin turns replies).length = 2 * turns.length := by
  intro turns
  induction turns with
  | nil => intro replies _; simp [turnsJoin]
  | cons t ts ih =>
      intro replies h
      cases replies with
      | nil => simp at h
      | cons r rs =>
          have := ih rs (by simpa using h)
          simp [turnsJoin, this]
          omega

theorem run_turns_live (env : Env) (timeout : Int) (id : String) :
    ∀ (turns : List (Int × String)) (store : Store) (s : SessionCtx),
      (storeKeys store).Nodup →
      lookupSession store id = some s →
      gaps_ok timeout s.last_accessed turns →
      ∃ s' replies,
        lookupSession (run_turns env timeout id turns store) id = some s' ∧
        replies.length = turns.length ∧
        s'.messages = s.messages ++ turnsJoin turns replies ∧
        (storeKeys (run_turns env timeout id turns store)).Nodup := by
  intro turns
  induction turns with
  | nil =>
      intro store s hnd h _
      exact ⟨s, [], h, rfl, by simp [turnsJoin], hnd⟩
  | cons t rest ih =>
      intro store s hnd h hgaps
      obtain ⟨hgap, hgaps'⟩ := hgaps
      obtain ⟨resp, goals, recs, hlk1, hkeys1⟩ :=
        chat_step_live env timeout t.1 store id t.2 s h (by omega)
      have hnd1 : (storeKeys (chat env timeout t.1 store id t.2).2).Nodup := by
        rw [hkeys1]
        exact storeKeys_clean_nodup t.1 timeout store hnd
      obtain ⟨s', replies', hlk2, hlen, hmsgs, hnd2⟩ :=
        ih (chat env timeout t.1 store id t.2).2 _ hnd1 hlk1 hgaps'
      refine ⟨s', resp :: replies', hlk2, by simpa using hlen, ?_, hnd2⟩
      rw [hmsgs]
      simp [turnsJoin, List.append_assoc]

/-- C9: starting from a store with no live entry for the id, any
non-empty sequence of completed `/chat` turns whose inter-turn gaps
stay within the session timeout leaves the session's `messages` equal
to one `user` entry (carrying the turn's message) followed by one
`assistant` entry (carrying that turn's returned response, which is the
error text when generation fails) per turn, in turn order — hence of
length exactly twice the number of completed turns. -/
theorem chat_messages_two_per_turn (env : Env) (timeout : Int) (id : String)
    (turns : List (Int × String)) (store : Store)
    (hnd : (storeKeys store).Nodup)
    (habs : lookupSession store id = none)
    (hne : turns ≠ [])
    (hgaps : gaps_after_first timeout turns) :
    ∃ s' replies,
      lookupSession (run_turns env timeout id turns store) id = some s' ∧
      replies.length = turns.length ∧
      s'.messages = turnsJoin turns replies ∧
      s'.messages.length = 2 * turns.length := by
  cases turns with
  | nil => exact absurd rfl hne
  | cons t rest =>
      obtain ⟨resp, goals, recs, hlk1, hkeys1⟩ :=
        chat_step_new env timeout t.1 store id t.2 habs
      have hnotmem : id ∉ storeKeys (clean_expired t.1 timeout store) :=
        not_mem_of_lookupSession_eq_none _ _
          (lookupSession_clean_none t.1 timeout store id habs)
      have hnd1 : (storeKeys (chat env timeout t.1 store id t.2).2).Nodup := by
        rw [hkeys1]
        refine List.Nodup.append (storeKeys_clean_nodup t.1 timeout store hnd)
          (List.nodup_singleton id) ?_
        intro a ha hb
        rw [List.mem_singleton] at hb
        exact hnotmem (hb ▸ ha)
      obtain ⟨s', replies', hlk2, hlen, hmsgs, _⟩ :=
        run_turns_live env timeout id rest (chat env timeout t.1 store id t.2).2
          _ hnd1 hlk1 hgaps
      have hlen' : (resp :: replies').length = (t :: rest).length := by simpa using hlen
      refine ⟨s', resp :: replies', hlk2, hlen', ?_, ?_⟩
      · rw [hmsgs]
        simp [turnsJoin]
      · rw [hmsgs]
        have : ({ role := "user", content := t.2 } ::
            { role := "assistant", content := resp } :: turnsJoin rest replies')
              = turnsJoin (t :: rest) (resp :: replies') := rfl
        simp only [List.nil_append]
        rw [show (([{ role := "user", content := t.2 },
              { role := "assistant", content := resp }] : List Message)
                ++ turnsJoin rest replies') = turnsJoin (t :: rest) (resp :: replies') from rfl]
        exact turnsJoin_length (t :: rest) (resp :: replies') hlen'

theorem chat_messages_two_per_turn_witness :
    (((storeKeys ([] : Store)).Nodup ∧
        lookupSession ([] : Store) "s1" = none ∧
        ([((0 : Int), "hi"), ((5 : Int), "again")] ≠ ([] : List (Int × String))) ∧
        gaps_after_first 3600 [((0 : Int), "hi"), ((5 : Int), "again")]) ∧
      (∃ s' replies,
        lookupSession
            (run_turns envNoKey 3600 "s1" [((0 : Int), "hi"), ((5 : Int), "again")] []) "s1"
          = some s' ∧
        replies.length = ([((0 : Int), "hi"), ((5 : Int), "again")] : List (Int × String)).length ∧
        s'.messages = turnsJoin [((0 : Int), "hi"), ((5 : Int), "again")] replies ∧
        s'.messages.length = 2 * ([((0 : Int), "hi"), ((5 : Int), "again")] : List (Int × String)).length)) :=
  ⟨⟨List.nodup_nil, rfl, by decide, ⟨by decide, trivial⟩⟩,
   chat_messages_two_per_turn envNoKey 3600 "s1"
     [((0 : Int), "hi"), ((5 : Int), "again")] []
     List.nodup_nil rfl (by decide) ⟨by decide, trivial⟩⟩

/-! ### Arbitrary session operations (claim C8) -/

/-- A bare `get_session` load of a live session: the stored entry gets
`last_accessed := now` and nothing else; keys are those of the sweep. -/
theorem get_session_step_live (timeout now : Int) (store : Store)
    (id : String) (s : SessionCtx)
    (h : lookupSession store id = some s)
    (hl : ¬ now - s.last_accessed > timeout) :
    lookupSession (get_session now timeout store id).2 id
      = some { s with last_accessed := now } ∧
    storeKeys (get_session now timeout store id).2
      = storeKeys (clean_expired now timeout store) := by
  rw [get_session_of_live now timeout store id s h hl]
  exact ⟨lookupSession_refresh_self _ _ _
          (by rw [lookupSession_clean_live now timeout store id s h hl]; rfl),
         storeKeys_refresh _ _ _⟩

theorem apply_ops_live (env : Env) (timeout : Int) (id : String) :
    ∀ (ops : List SOp) (store : Store) (s : SessionCtx),
      (storeKeys store).Nodup →
      lookupSession store id = some s →
      ops_chain timeout s.last_accessed ops →
      ∃ s',
        lookupSession (apply_ops env timeout id ops store) id = some s' ∧
        (∃ tail, s'.messages = s.messages ++ tail) ∧
        s.last_accessed ≤ s'.last_accessed ∧
        (storeKeys (apply_ops env timeout id ops store)).Nodup := by
  intro ops
  induction ops with
  | nil =>
      intro store s hnd h _
      exact ⟨s, h, ⟨[], by simp⟩, le_refl _, hnd⟩
  | cons op rest ih =>
      intro store s hnd h hchain
      obtain ⟨⟨hle, hgap⟩, hchain'⟩ := hchain
      cases op with
      | load n =>
          obtain ⟨hlk1, hkeys1⟩ :=
            get_session_step_live timeout n store id s h (by simpa [nowOf] using not_lt.mpr (by simpa [nowOf] using hgap))
          have hnd1 : (storeKeys (get_session n timeout store id).2).Nodup := by
            rw [hkeys1]; exact storeKeys_clean_nodup n timeout store hnd
          obtain ⟨s', hlk2, ⟨tail, htail⟩, hlast, hnd2⟩ :=
            ih (get_session n timeout store id).2 _ hnd1 hlk1 hchain'
          refine ⟨s', hlk2, ⟨tail, htail⟩, ?_, hnd2⟩
          calc s.last_accessed ≤ n := by simpa [nowOf] using hle
            _ ≤ s'.last_accessed := hlast
      | turn n m =>
          obtain ⟨resp, goals, recs, hlk1, hkeys1⟩ :=
            chat_step_live env timeout n store id m s h
              (by simpa [nowOf] using not_lt.mpr (by simpa [nowOf] using hgap))
          have hnd1 : (storeKeys (chat env timeout n store id m).2).Nodup := by
            rw [hkeys1]; exact storeKeys_clean_nodup n timeout store hnd
          obtain ⟨s', hlk2, ⟨tail, htail⟩, hlast, hnd2⟩ :=
            ih (chat env timeout n store id m).2 _ hnd1 hlk1 hchain'
          refine ⟨s', hlk2,
            ⟨[{ role := "user", content := m },
              { role := "assistant", content := resp }] ++ tail, ?_⟩, ?_, hnd2⟩
          · rw [htail]
            simp [List.append_assoc]
          · calc s.last_accessed ≤ n := by simpa [nowOf] using hle
              _ ≤ s'.last_accessed := hlast

/-- C8: across any sequence of session loads and chat turns on a live
session, at non-decreasing times whose idle gaps stay within the
timeout, the session's `messages` sequence is only ever extended at the
end (each earlier value is a prefix of each later value) and its
`last_accessed` is monotonically non-decreasing. -/
theorem session_messages_append_only (env : Env) (timeout : Int) (id : String)
    (ops : List SOp) (store : Store) (s : SessionCtx)
    (hnd : (storeKeys store).Nodup)
    (h : lookupSession store id = some s)
    (hchain : ops_chain timeout s.last_accessed ops) :
    ∃ s',
      lookupSession (apply_ops env timeout id ops store) id = some s' ∧
      (∃ tail, s'.messages = s.messages ++ tail) ∧
      s.last_accessed ≤ s'.last_accessed := by
  obtain ⟨s', h1, h2, h3, _⟩ := apply_ops_live env timeout id ops store s hnd h hchain
  exact ⟨s', h1, h2, h3⟩

theorem session_messages_append_only_witness :
    (((storeKeys [("a", fresh_session 0)]).Nodup ∧
        lookupSession [("a", fresh_session 0)] "a" = some (fresh_session 0) ∧
        ops_chain 3600 (fresh_session 0).last_accessed
          [SOp.load 1, SOp.turn 2 "hello"]) ∧
      (∃ s',
        lookupSession
            (apply_ops envNoKey 3600 "a" [SOp.load 1, SOp.turn 2 "hello"]
              [("a", fresh_session 0)]) "a" = some s' ∧
        (∃ tail, s'.messages = (fresh_session 0).messages ++ tail) ∧
        (fresh_session 0).last_accessed ≤ s'.last_accessed)) :=
  ⟨⟨by decide, by decide,
     ⟨⟨by decide, by decide⟩, ⟨⟨by decide, by decide⟩, trivial⟩⟩⟩,
   session_messages_append_only envNoKey 3600 "a"
     [SOp.load 1, SOp.turn 2 "hello"] [("a", fresh_session 0)] (fresh_session 0)
     (by decide) (by decide)
     ⟨⟨by decide, by decide⟩, ⟨⟨by decide, by decide⟩, trivial⟩⟩⟩

set_option maxRecDepth 100000 in
/-- C1 (refuting the accumulator claim as written): a completed turn
that emits a recommendation payload does not append it to the
session's `recommended_supplements` — after the turn below, which does
produce a payload, that field is still empty — the payload is appended
to the ad-hoc `recommendations` key created by the endpoint instead. -/
theorem recommended_supplements_never_updated :
    ((chat c1_env 3600 100 [] "s1" "I want to improve my sleep").1.recommendations
        = some magnesium_payload) ∧
    ((lookupSession (chat c1_env 3600 100 [] "s1" "I want to improve my sleep").2 "s1").map
        (fun c => c.recommended_supplements) = some []) ∧
    ((lookupSession (chat c1_env 3600 100 [] "s1" "I want to improve my sleep").2 "s1").map
        (fun c => c.recommendations) = some (some [magnesium_payload])) :=
  ⟨by decide, by decide, by decide⟩
